import Mathlib

/-!
Verification of the Scripts repository.

The repository holds two small Python utilities:
* `videodownloader.py` — a playlist ingestion loop that skips videos that
  are already on disk or longer than 30 minutes, downloads the rest, and
  reports counters.
* `qBitDownloader.py` — scrapes a wiki page for raw `.py` plugin URLs and
  downloads them.

Strings are embedded as `List Char`.  External effects (the yt-dlp
metadata / download calls, the directory listing) are embedded as oracle
data carried by each candidate: a candidate record holds the outcome the
external collaborator would produce for it, and the pure loop logic is
translated line by line from the source.  Python ASCII string predicates
(`isalnum`, `lower`, `strip`) are modelled on the ASCII fragment.
-/

/-- Python whitespace test on the ASCII range: space, tab, newline,
carriage return, vertical tab and form feed (what `str.strip()` with no
argument removes). -/
def pyIsSpace (c : Char) : Bool :=
  c = ' ' || c = '\t' || c = '\n' || c = '\r' || c.toNat = 11 || c.toNat = 12

/-- Python `str.strip()`: drop whitespace from both ends. -/
def pyStrip (s : List Char) : List Char :=
  ((s.dropWhile pyIsSpace).reverse.dropWhile pyIsSpace).reverse

/-- Python `str.lower()` on the ASCII range. -/
def pyLower (s : List Char) : List Char :=
  s.map Char.toLower

/-- videodownloader.py line 112: `"".join(c for c in video_title if
c.isalnum() or c in (' ', '-', '_')).strip()` — keep alphanumerics,
space, hyphen, underscore; strip all else; trim whitespace. -/
def clean_title (video_title : List Char) : List Char :=
  pyStrip (video_title.filter (fun c => c.isAlphanum || c = ' ' || c = '-' || c = '_'))

/-- Index of the last occurrence of a character in a list, if any. -/
def lastIdxOf (c : Char) : List Char → Option Nat
  | [] => none
  | x :: xs =>
    match lastIdxOf c xs with
    | some i => some (i + 1)
    | none => if x = c then some 0 else none

/-- Python `os.path.splitext(file)[0]` for a bare filename (no path
separator): split at the last dot, except that a dot with only dots
before it (a leading-dot name such as `".bashrc"`) yields no extension. -/
def splitextStem (file : List Char) : List Char :=
  match lastIdxOf '.' file with
  | none => file
  | some i => if (file.take i).any (fun c => c ≠ '.') then file.take i else file

/-- videodownloader.py line 116: `file.endswith(('.mp4', '.mkv', '.webm',
'.m4a', '.mp3'))`. -/
def hasMediaExt (file : List Char) : Bool :=
  [".mp4", ".mkv", ".webm", ".m4a", ".mp3"].any (fun ext => ext.toList.isSuffixOf file)

/-- Python substring containment `needle in haystack`. -/
def isSubstring (needle : List Char) : List Char → Bool
  | [] => needle.isEmpty
  | c :: rest => needle.isPrefixOf (c :: rest) || isSubstring needle rest

/-- videodownloader.py lines 115–123: the scan over `os.listdir`.  For
each file with a recognized media extension take the stem with
`os.path.splitext`; return `(True, file)` when the cleaned title is
longer than 10 characters and is (lowercased) a substring of the stem,
or the stem is longer than 10 characters and is (lowercased) a substring
of the cleaned title.  The stem itself is never normalized in the
source; only `.lower()` is applied to both sides of the containment
tests. -/
def scanFiles (ct : List Char) : List (List Char) → Bool × Option (List Char)
  | [] => (false, none)
  | file :: rest =>
    if hasMediaExt file then
      let file_stem := splitextStem file
      if ct.length > 10 && isSubstring (pyLower ct) (pyLower file_stem) then
        (true, some file)
      else if file_stem.length > 10 && isSubstring (pyLower file_stem) (pyLower ct) then
        (true, some file)
      else scanFiles ct rest
    else scanFiles ct rest

/-- videodownloader.py lines 106–123, `is_already_downloaded`.  The
download directory is embedded as `Option (List (List Char))`: `none`
when `os.path.exists` is false (line 108, returning `(False, None)`),
`some files` for the `os.listdir` snapshot otherwise. -/
def is_already_downloaded (video_title : List Char)
    (download_dir : Option (List (List Char))) : Bool × Option (List Char) :=
  match download_dir with
  | none => (false, none)
  | some files => scanFiles (clean_title video_title) files

/-- One candidate of the playlist, with the outcomes the external
collaborator (yt-dlp) would produce for it: whether the per-item
metadata fetch raises (`fetchOk = false` models the `except` branch of
`check_available_formats`, lines 96–99), the `info.get('duration')`
value on success, and whether `download_video` succeeds. -/
structure Video where
  title : List Char
  fetchOk : Bool
  duration : Option Nat
  downloadOk : Bool
deriving DecidableEq

/-- videodownloader.py lines 67–99, `check_available_formats`, restricted
to the duration component consumed by the loop (`best_height` is only
printed): on an exception the function returns `(None, None)`, so the
caller sees no duration; on success it sees `info.get('duration')`. -/
def check_available_formats (v : Video) : Option Nat :=
  if v.fetchOk then v.duration else none

/-- videodownloader.py line 221: `if duration and duration > max_duration`.
Python truthiness: `None` and `0` are falsy, so the comparison only runs
for a known non-zero duration. -/
def isTooLongCheck (duration : Option Nat) (max_duration : Nat) : Bool :=
  match duration with
  | none => false
  | some n => (n != 0) && (n > max_duration)

/-- Terminal outcome of one loop iteration: which of the four counters of
videodownloader.py lines 195–198 it increments. -/
inductive Outcome where
  | downloaded
  | skippedDuration
  | skippedExists
  | errored
deriving DecidableEq

/-- Result of processing one candidate: its outcome and whether
`download_video` (the download collaborator, line 228) was invoked. -/
structure StepResult where
  outcome : Outcome
  downloadAttempted : Bool
deriving DecidableEq

/-- videodownloader.py lines 200–236, the body of the ingestion loop for
one candidate: the existing-output check first (lines 207–211), then the
metadata fetch and the duration filter (lines 215–224), then the download
attempt (lines 228–233). -/
def processVideo (max_duration : Nat) (download_dir : Option (List (List Char)))
    (v : Video) : StepResult :=
  if (is_already_downloaded v.title download_dir).1 then
    ⟨Outcome.skippedExists, false⟩
  else
    let duration := check_available_formats v
    if isTooLongCheck duration max_duration then
      ⟨Outcome.skippedDuration, false⟩
    else if v.downloadOk then
      ⟨Outcome.downloaded, true⟩
    else
      ⟨Outcome.errored, true⟩

/-- The four run-summary counters of videodownloader.py lines 195–198. -/
structure Counters where
  downloaded_count : Nat
  skipped_duration : Nat
  skipped_exists : Nat
  errors : Nat
deriving DecidableEq

/-- Increment the one counter selected by the outcome (lines 210, 223,
230, 233). -/
def stepCounters (c : Counters) (o : Outcome) : Counters :=
  match o with
  | Outcome.downloaded => { c with downloaded_count := c.downloaded_count + 1 }
  | Outcome.skippedDuration => { c with skipped_duration := c.skipped_duration + 1 }
  | Outcome.skippedExists => { c with skipped_exists := c.skipped_exists + 1 }
  | Outcome.errored => { c with errors := c.errors + 1 }

/-- videodownloader.py lines 195–236: the whole loop, starting from zero
counters and folding the per-candidate step over the playlist. -/
def runLoop (max_duration : Nat) (download_dir : Option (List (List Char)))
    (videos : List Video) : Counters :=
  videos.foldl (fun c v => stepCounters c (processVideo max_duration download_dir v).outcome)
    ⟨0, 0, 0, 0⟩

/-- Sum of the four counters, as reported by the summary block
(lines 239–247). -/
def Counters.total (c : Counters) : Nat :=
  c.downloaded_count + c.skipped_duration + c.skipped_exists + c.errors

/-- Character class `[^\s"\)<]` of the plugin-URL regexes of
qBitDownloader.py lines 31–35: any character that is not whitespace, a
double quote, a closing parenthesis or a less-than sign. -/
def isClassChar (c : Char) : Bool :=
  !(pyIsSpace c || c = '\"' || c = ')' || c = '<')

/-- Segment of a plugin-URL regex: each of the three patterns of
qBitDownloader.py lines 31–35 is an alternation-free sequence of literal
runs and greedy one-or-more repetitions of the class `[^\s"\)<]`. -/
inductive Seg where
  | lit (s : List Char)
  | plus

/-- Greedy search: try a repetition count of `k`, then `k - 1`, down to
`1`, and return the first success — the order in which a backtracking
regex engine tries a greedy one-or-more repetition. -/
def findGreedy (f : Nat → Option Nat) : Nat → Option Nat
  | 0 => none
  | k + 1 =>
    match f (k + 1) with
    | some n => some n
    | none => findGreedy f k

/-- Backtracking matcher for a segment sequence anchored at the head of
the input; returns the number of characters consumed by the leftmost
greedy match, in the search order of the Python `re` engine on these
patterns: a `plus` segment consumes the maximal run of class characters
first and gives characters back one at a time until the rest of the
pattern matches. -/
def matchSegs : List Seg → List Char → Option Nat
  | [], _ => some 0
  | Seg.lit s :: rest, input =>
    if s.isPrefixOf input then
      (matchSegs rest (input.drop s.length)).map (· + s.length)
    else none
  | Seg.plus :: rest, input =>
    findGreedy (fun k => (matchSegs rest (input.drop k)).map (· + k))
      ((input.takeWhile isClassChar).length)

/-- Scanning pass of Python `re.findall` on an alternation-free pattern:
scan left to right, at each position emit the leftmost-greedy match and
resume right after it (matches never overlap), otherwise advance one
character.  The fuel argument only bounds the number of scan steps so
the recursion is structural: every step consumes at least as many input
characters as fuel, so starting fuel at the input length never runs
out.  A zero-width match cannot arise for these patterns (each starts
with a nonempty literal); the scan advances one character anyway. -/
def findallAux (segs : List Seg) : Nat → List Char → List (List Char)
  | 0, _ => []
  | _ + 1, [] => []
  | fuel + 1, c :: rest =>
    match matchSegs segs (c :: rest) with
    | some (n + 1) => (c :: rest).take (n + 1) :: findallAux segs fuel (rest.drop n)
    | _ => findallAux segs fuel rest

/-- Python `re.findall pattern input`: the scanning pass started with
enough fuel for the whole input. -/
def findall (segs : List Seg) (input : List Char) : List (List Char) :=
  findallAux segs input.length input

/-- qBitDownloader.py line 32, the raw.githubusercontent pattern. -/
def pat1 : List Seg :=
  [Seg.lit "https://raw.githubusercontent.com/".toList, Seg.plus, Seg.lit ".py".toList]

/-- qBitDownloader.py line 33, the github.com raw-path pattern. -/
def pat2 : List Seg :=
  [Seg.lit "https://github.com/".toList, Seg.plus, Seg.lit "/raw/".toList,
   Seg.plus, Seg.lit ".py".toList]

/-- qBitDownloader.py line 34, the gist.githubusercontent pattern. -/
def pat3 : List Seg :=
  [Seg.lit "https://gist.githubusercontent.com/".toList, Seg.plus, Seg.lit ".py".toList]

/-- qBitDownloader.py lines 43–48: remove duplicates while preserving the
first occurrence, `seen` accumulating the URLs already emitted. -/
def dedupAux (seen : List (List Char)) : List (List Char) → List (List Char)
  | [] => []
  | u :: rest =>
    if u ∈ seen then dedupAux seen rest
    else u :: dedupAux (u :: seen) rest

/-- qBitDownloader.py lines 28–50, `extract_plugin_urls`: concatenate the
matches of the three patterns in pattern order (lines 37–40), then
deduplicate preserving first occurrence in that concatenation. -/
def extract_plugin_urls (html_content : List Char) : List (List Char) :=
  dedupAux []
    (findall pat1 html_content ++ findall pat2 html_content ++ findall pat3 html_content)

/-- Index of the first occurrence of `needle` as a contiguous substring
of `haystack`, if any. -/
def firstOccIdx (needle : List Char) : List Char → Option Nat
  | [] => if needle.isEmpty then some 0 else none
  | c :: rest =>
    if needle.isPrefixOf (c :: rest) then some 0
    else (firstOccIdx needle rest).map (· + 1)

/-- Strict before relation on first-occurrence positions in the markup
(the order claim C6 asserts for the extracted URL sequence). -/
def occBefore (html a b : List Char) : Bool :=
  match firstOccIdx a html, firstOccIdx b html with
  | some i, some j => i < j
  | _, _ => false

/-- Index of the first occurrence of a URL in a URL list: 0 at the
head, one more for each earlier non-match, the list's length when the
URL is absent. -/
def firstIdx (x : List Char) : List (List Char) → Nat
  | [] => 0
  | u :: rest => if u = x then 0 else firstIdx x rest + 1

/-- Matcher predicate as claim C3 words it (written from the spec, for
comparison with the source matcher): a file matches when it has a
recognized media extension and, after stripping the extension and
applying to the stem the same normalization applied to the title, the
case-insensitive containment test in either direction passes under the
length-over-10 needle threshold. -/
def specNormMatches (ct : List Char) (file : List Char) : Bool :=
  hasMediaExt file &&
    (let st := clean_title (splitextStem file)
     (ct.length > 10 && isSubstring (pyLower ct) (pyLower st)) ||
     (st.length > 10 && isSubstring (pyLower st) (pyLower ct)))

/-- Existing-output matcher as claim C3 describes it: first file of the
snapshot matching `specNormMatches` against the normalized title. -/
def findExistingSpecNormalized (title : List Char) (files : List (List Char)) :
    Option (List Char) :=
  files.find? (specNormMatches (clean_title title))

/-- Matcher predicate as the source actually computes it (the amended
reading of claim C3): the stem is compared unnormalized, with only
`.lower()` applied to both sides of the containment tests. -/
def codeMatches (ct : List Char) (file : List Char) : Bool :=
  hasMediaExt file &&
    (let st := splitextStem file
     (ct.length > 10 && isSubstring (pyLower ct) (pyLower st)) ||
     (st.length > 10 && isSubstring (pyLower st) (pyLower ct)))

/-- Existing-output matcher in spec style (first matching file of the
snapshot) built on the source's actual per-file predicate. -/
def findExistingAmended (title : List Char) (files : List (List Char)) :
    Option (List Char) :=
  files.find? (codeMatches (clean_title title))

/-- Modelled from the spec: the repository's second, ledger-using
downloader variant (spec sections 3, 4.2 and 4.4) is not under src/.
One candidate of that loop, carrying the outcomes the external
collaborators would produce for it: whether the existing-output matcher
hits, whether the per-item metadata fetch succeeds, the age and
duration policy results, and whether the media fetch succeeds. -/
structure SpecCandidate where
  id : Nat
  matcherHit : Bool
  metaOk : Bool
  tooOld : Bool
  tooLong : Bool
  fetchOk : Bool

/-- Modelled from the spec: loop state of spec section 4.4 — the
in-memory dedup ledger, the consecutive old-streak counter, and whether
the loop has reached the early-exit `Halted` state. -/
structure SpecLoopState where
  ledger : List Nat
  oldStreak : Nat
  halted : Bool

/-- Modelled from the spec: the section 4.4 transition for one
candidate, in the fixed order given there — ledger membership (no streak
reset), existing-output match (no streak reset), metadata fetch
failure, age rejection feeding the streak and the early-exit threshold,
streak reset then duration rejection, then the media fetch with a
ledger update only on success.  A halted loop consumes no further
candidates. -/
def specStep (limit : Nat) (s : SpecLoopState) (c : SpecCandidate) : SpecLoopState :=
  if s.halted then s
  else if c.id ∈ s.ledger then s
  else if c.matcherHit then s
  else if !c.metaOk then s
  else if c.tooOld then
    { s with oldStreak := s.oldStreak + 1, halted := s.oldStreak + 1 ≥ limit }
  else if c.tooLong then { s with oldStreak := 0 }
  else if c.fetchOk then { ledger := c.id :: s.ledger, oldStreak := 0, halted := s.halted }
  else { s with oldStreak := 0 }

/-- Modelled from the spec: one whole run of the section 4.4 loop,
starting from the loaded ledger with a zero streak; the final state's
ledger is what `save` persists at the end of the run. -/
def specRun (limit : Nat) (initialLedger : List Nat) (cs : List SpecCandidate) :
    SpecLoopState :=
  cs.foldl (specStep limit) { ledger := initialLedger, oldStreak := 0, halted := false }

/-- Concrete markup of the spec's dedup-extraction test: the raw URL
twice, the gist URL once, the raw URL first. -/
def html7 : List Char :=
  ("https://raw.githubusercontent.com/a/b/x.py " ++
   "https://gist.githubusercontent.com/c/y.py " ++
   "https://raw.githubusercontent.com/a/b/x.py").toList

/-- Concrete markup in which the gist URL occurs strictly before the raw
URL. -/
def html6 : List Char :=
  ("https://gist.githubusercontent.com/c/y.py " ++
   "https://raw.githubusercontent.com/a/b/x.py").toList

/-- The raw.githubusercontent URL of the two concrete markups. -/
def rawUrl : List Char := "https://raw.githubusercontent.com/a/b/x.py".toList

/-- The gist.githubusercontent URL of the two concrete markups. -/
def gistUrl : List Char := "https://gist.githubusercontent.com/c/y.py".toList

/-- Concrete candidate with a known 2000-second duration. -/
def vidLong : Video := ⟨"A Perfectly Fine Title".toList, true, some 2000, true⟩

/-- Concrete candidate whose metadata fetch raises and whose download
would succeed. -/
def vidMetaFail : Video := ⟨"Some Video".toList, false, none, true⟩

/-- Concrete title for the stem-normalization counterexample. -/
def titleC3 : List Char := "My Great Video Extended Cut".toList

/-- Concrete filename whose stem differs from the title only by a
character the normalization strips. -/
def fileC3 : List Char := "My Great Video! Extended Cut.mp4".toList

/-- Title of the spec's positive existing-output test. -/
def titleC4 : List Char := "My Great Video".toList

/-- Filename of the spec's positive existing-output test. -/
def fileC4 : List Char := "My Great Video.mp4".toList

/-- Candidate of the spec's positive existing-output test. -/
def vidC4 : Video := ⟨titleC4, true, some 300, true⟩

/-- Title of the spec's short-title-guard test. -/
def titleC5 : List Char := "Ep1".toList

/-- Filename of the spec's short-title-guard test. -/
def fileC5 : List Char := "Ep1 Full.mp4".toList

/-- Candidate of the spec's short-title-guard test. -/
def vidC5 : Video := ⟨titleC5, true, some 300, true⟩

/-- Concrete candidate for the spec-modelled ledger loop. -/
def specCand : SpecCandidate := ⟨7, false, true, false, false, true⟩

/-- Membership in the dedup pass: an element is kept iff it occurs in
the list and was not already seen. -/
theorem dedupAux_mem (x : List Char) : ∀ (seen l : List (List Char)),
    x ∈ dedupAux seen l ↔ x ∈ l ∧ x ∉ seen := by
  intro seen l
  induction l generalizing seen with
  | nil => simp [dedupAux]
  | cons u rest ih =>
    by_cases hu : u ∈ seen
    · simp only [dedupAux, if_pos hu, ih]
      constructor
      · exact fun ⟨h1, h2⟩ => ⟨List.mem_cons_of_mem u h1, h2⟩
      · rintro ⟨h1, h2⟩
        rcases List.mem_cons.mp h1 with rfl | h1
        · exact absurd hu h2
        · exact ⟨h1, h2⟩
    · simp only [dedupAux, if_neg hu]
      constructor
      · intro h
        rcases List.mem_cons.mp h with rfl | h
        · exact ⟨List.mem_cons_self x rest, hu⟩
        · have h2 := (ih (u :: seen)).mp h
          exact ⟨List.mem_cons_of_mem u h2.1,
            fun hs => h2.2 (List.mem_cons_of_mem u hs)⟩
      · rintro ⟨h1, h2⟩
        rcases List.mem_cons.mp h1 with rfl | h1
        · exact List.mem_cons_self x _
        · by_cases hxu : x = u
          · subst hxu; exact List.mem_cons_self x _
          · refine List.mem_cons_of_mem u ((ih (u :: seen)).mpr ⟨h1, fun hs => ?_⟩)
            rcases List.mem_cons.mp hs with h | h
            · exact hxu h
            · exact h2 h

/-- The dedup pass emits no element twice. -/
theorem dedupAux_nodup : ∀ (seen l : List (List Char)), (dedupAux seen l).Nodup := by
  intro seen l
  induction l generalizing seen with
  | nil => simp [dedupAux]
  | cons u rest ih =>
    by_cases hu : u ∈ seen
    · simpa [dedupAux, if_pos hu] using ih seen
    · simp only [dedupAux, if_neg hu]
      refine List.nodup_cons.mpr ⟨fun hmem => ?_, ih (u :: seen)⟩
      exact ((dedupAux_mem u (u :: seen) rest).mp hmem).2 (List.mem_cons_self u seen)

/-- The dedup pass returns a subsequence of its input. -/
theorem dedupAux_sublist : ∀ (seen l : List (List Char)), List.Sublist (dedupAux seen l) l := by
  intro seen l
  induction l generalizing seen with
  | nil => simp [dedupAux]
  | cons u rest ih =>
    by_cases hu : u ∈ seen
    · simpa [dedupAux, if_pos hu] using (ih seen).cons u
    · simpa [dedupAux, if_neg hu] using (ih (u :: seen)).cons₂ u

/-- The dedup pass emits elements ordered by the index of their first
occurrence in its input: the first-occurrence index is strictly
increasing along the output (which a keep-last dedup would violate). -/
theorem dedupAux_pairwise_firstIdx : ∀ (seen l : List (List Char)),
    (dedupAux seen l).Pairwise (fun a b => firstIdx a l < firstIdx b l) := by
  intro seen l
  induction l generalizing seen with
  | nil => simp [dedupAux]
  | cons u rest ih =>
    by_cases hu : u ∈ seen
    · simp only [dedupAux, if_pos hu]
      refine (ih seen).imp_of_mem ?_
      intro a b ha hb hab
      have ha' : u ≠ a := by
        intro h
        exact ((dedupAux_mem a seen rest).mp ha).2 (h ▸ hu)
      have hb' : u ≠ b := by
        intro h
        exact ((dedupAux_mem b seen rest).mp hb).2 (h ▸ hu)
      simp only [firstIdx, if_neg ha', if_neg hb']
      omega
    · simp only [dedupAux, if_neg hu]
      refine List.pairwise_cons.mpr ⟨?_, ?_⟩
      · intro b hb
        have hb' : u ≠ b := by
          intro h
          exact ((dedupAux_mem b (u :: seen) rest).mp hb).2 (h ▸ List.mem_cons_self u seen)
        simp only [firstIdx, if_neg hb', eq_self_iff_true, if_true]
        omega
      · refine (ih (u :: seen)).imp_of_mem ?_
        intro a b ha hb hab
        have ha' : u ≠ a := by
          intro h
          exact ((dedupAux_mem a (u :: seen) rest).mp ha).2 (h ▸ List.mem_cons_self u seen)
        have hb' : u ≠ b := by
          intro h
          exact ((dedupAux_mem b (u :: seen) rest).mp hb).2 (h ▸ List.mem_cons_self u seen)
        simp only [firstIdx, if_neg ha', if_neg hb']
        omega

/-- The source's file scan agrees with the spec-style first-match search
built on the source's per-file predicate. -/
theorem scanFiles_eq_find (ct : List Char) : ∀ files : List (List Char),
    scanFiles ct files =
      (match files.find? (codeMatches ct) with
       | some f => (true, some f)
       | none => (false, none)) := by
  intro files
  induction files with
  | nil => rfl
  | cons f rest ih =>
    by_cases h1 : hasMediaExt f
    · by_cases h2 : ct.length > 10 && isSubstring (pyLower ct) (pyLower (splitextStem f))
      · simp [scanFiles, List.find?, codeMatches, h1, h2]
      · by_cases h3 :
          (splitextStem f).length > 10 && isSubstring (pyLower (splitextStem f)) (pyLower ct)
        · simp [scanFiles, List.find?, codeMatches, h1, h2, h3]
        · simp [scanFiles, List.find?, codeMatches, h1, h2, h3, ih]
    · simp [scanFiles, List.find?, codeMatches, h1, ih]

/-- Each outcome increments exactly one counter, so the step raises the
total by one. -/
theorem stepCounters_total (c : Counters) (o : Outcome) :
    (stepCounters c o).total = c.total + 1 := by
  cases o <;> simp [stepCounters, Counters.total] <;> omega

/-- Folding the counter step over a playlist adds the playlist length to
the total. -/
theorem foldl_counters_total (md : Nat) (dir : Option (List (List Char))) :
    ∀ (videos : List Video) (c : Counters),
      (videos.foldl (fun acc v => stepCounters acc (processVideo md dir v).outcome) c).total
        = c.total + videos.length := by
  intro videos
  induction videos with
  | nil => intro c; simp
  | cons v vs ih =>
    intro c
    simp only [List.foldl_cons, List.length_cons]
    rw [ih, stepCounters_total]
    omega

/-- One spec-loop step never removes a ledger entry. -/
theorem specStep_ledger_mono (limit : Nat) (s : SpecLoopState) (c : SpecCandidate) :
    s.ledger ⊆ (specStep limit s c).ledger := by
  unfold specStep
  repeat' split
  all_goals first
    | exact fun x hx => hx
    | exact fun x hx => List.mem_cons_of_mem _ hx

/-- Folding spec-loop steps never removes a ledger entry. -/
theorem foldl_specStep_ledger_mono (limit : Nat) :
    ∀ (cs : List SpecCandidate) (s : SpecLoopState),
      s.ledger ⊆ (cs.foldl (specStep limit) s).ledger := by
  intro cs
  induction cs with
  | nil => intro s; exact fun x hx => hx
  | cons c cs ih =>
    intro s
    exact fun x hx => ih (specStep limit s c) (specStep_ledger_mono limit s c hx)

/-- Claim C1: a candidate whose duration is known and strictly exceeds
the configured maximum of 30 * 60 seconds is skipped (as a duration
skip when the existing-output check did not already catch it) and the
download collaborator is never invoked for it; a candidate whose
duration is unknown is not skipped on the duration check. -/
theorem duration_filter_skips_long (dir : Option (List (List Char))) (v : Video) :
    (∀ n, check_available_formats v = some n → 30 * 60 < n →
      (processVideo (30 * 60) dir v).downloadAttempted = false ∧
      ((is_already_downloaded v.title dir).1 = false →
        (processVideo (30 * 60) dir v).outcome = Outcome.skippedDuration)) ∧
    (check_available_formats v = none →
      (processVideo (30 * 60) dir v).outcome ≠ Outcome.skippedDuration) := by
  constructor
  · intro n hn hgt
    have htl : isTooLongCheck (check_available_formats v) (30 * 60) = true := by
      rw [hn]
      simp only [isTooLongCheck, Bool.and_eq_true, bne_iff_ne, ne_eq, decide_eq_true_eq]
      omega
    by_cases hex : (is_already_downloaded v.title dir).1
    · constructor
      · simp [processVideo, hex]
      · intro h; rw [hex] at h; exact absurd h (by simp)
    · simp [processVideo, hex, htl]
  · intro hn
    by_cases hex : (is_already_downloaded v.title dir).1
    · simp [processVideo, hex]
    · by_cases hd : v.downloadOk <;> simp [processVideo, hex, hn, isTooLongCheck, hd]

/-- Claim C1 witness: a concrete 2000-second candidate against an empty
directory is skipped on the duration check and never downloaded. -/
theorem duration_filter_skips_long_witness :
    (processVideo (30 * 60) (some []) vidLong).downloadAttempted = false ∧
    (processVideo (30 * 60) (some []) vidLong).outcome = Outcome.skippedDuration := by
  have h := (duration_filter_skips_long (some []) vidLong).1 2000 (by decide) (by decide)
  exact ⟨h.1, h.2 (by decide)⟩

/-- Claim C2 counterexample: for a concrete candidate whose per-item
metadata fetch fails (and whose download would succeed), the loop does
not skip the candidate and does not count an error — it invokes the
download collaborator and counts a download. -/
theorem metadata_failure_cex :
    (processVideo (30 * 60) (some []) vidMetaFail).downloadAttempted = true ∧
    (processVideo (30 * 60) (some []) vidMetaFail).outcome = Outcome.downloaded := by
  decide

/-- Claim C2 amended: when the per-item metadata fetch fails,
`check_available_formats` swallows the exception and reports no
duration, so the loop does not skip the candidate: it passes the
duration filter and invokes the download collaborator; the error
counter is incremented only if the download itself then fails. -/
theorem metadata_failure_proceeds (dir : Option (List (List Char))) (v : Video)
    (h : v.fetchOk = false)
    (hex : (is_already_downloaded v.title dir).1 = false) :
    (processVideo (30 * 60) dir v).downloadAttempted = true ∧
    (processVideo (30 * 60) dir v).outcome =
      (if v.downloadOk then Outcome.downloaded else Outcome.errored) := by
  by_cases hd : v.downloadOk <;>
    simp [processVideo, hex, check_available_formats, h, isTooLongCheck, hd]

/-- Claim C2 amended witness: the concrete metadata-failure candidate
against an empty directory. -/
theorem metadata_failure_proceeds_witness :
    (processVideo (30 * 60) (some []) vidMetaFail).downloadAttempted = true ∧
    (processVideo (30 * 60) (some []) vidMetaFail).outcome =
      (if vidMetaFail.downloadOk then Outcome.downloaded else Outcome.errored) :=
  metadata_failure_proceeds (some []) vidMetaFail rfl rfl

/-- Claim C3 counterexample: on the stem "My Great Video! Extended Cut"
(whose only non-normalized character is the exclamation mark) against
the title "My Great Video Extended Cut", the source matcher reports no
match, while the matcher described by the claim — which normalizes the
stem like the title — reports a match; so the source does not apply the
title normalization to the stem. -/
theorem stem_normalization_cex :
    is_already_downloaded titleC3 (some [fileC3]) = (false, none) ∧
    findExistingSpecNormalized titleC3 [fileC3] = some fileC3 := by
  decide

/-- Claim C3 amended: the matcher strips the recognized media extension
from each filename but applies no normalization to the stem; only the
candidate title is normalized, and the containment tests lowercase both
sides.  Stated as: the source scan equals the spec-style first-match
search over the source's per-file predicate. -/
theorem matcher_stem_unnormalized (title : List Char) (files : List (List Char)) :
    is_already_downloaded title (some files) =
      (match findExistingAmended title files with
       | some f => (true, some f)
       | none => (false, none)) := by
  simp only [is_already_downloaded, findExistingAmended]
  exact scanFiles_eq_find (clean_title title) files

/-- Claim C4: with "My Great Video.mp4" in the output directory and
candidate title "My Great Video", the matcher reports a match and the
loop skips the candidate without invoking the download collaborator. -/
theorem existing_match_positive :
    is_already_downloaded titleC4 (some [fileC4]) = (true, some fileC4) ∧
    (processVideo (30 * 60) (some [fileC4]) vidC4).outcome = Outcome.skippedExists ∧
    (processVideo (30 * 60) (some [fileC4]) vidC4).downloadAttempted = false := by
  decide

/-- Claim C5: candidate title "Ep1" against directory file
"Ep1 Full.mp4" does not match (the needle length threshold of 10 fails
in both containment directions), so the loop goes on to attempt the
fetch for the candidate. -/
theorem short_title_no_match :
    is_already_downloaded titleC5 (some [fileC5]) = (false, none) ∧
    (processVideo (30 * 60) (some [fileC5]) vidC5).downloadAttempted = true := by
  decide

set_option maxRecDepth 20000 in
/-- Claim C6 counterexample: on markup holding the gist URL at position
0 and the raw URL at position 42, extraction returns the raw URL first
(pattern order), so the output is not ordered by position of first
occurrence in the input markup. -/
theorem extraction_order_cex :
    extract_plugin_urls html6 = [rawUrl, gistUrl] ∧
    firstOccIdx gistUrl html6 = some 0 ∧
    firstOccIdx rawUrl html6 = some 42 ∧
    occBefore html6 rawUrl gistUrl = false := by
  decide

/-- Claim C6 amended: extraction returns the concatenation of the three
patterns' match lists (pattern order, each pattern's matches in input
order) deduplicated preserving first occurrence in that concatenation —
the output has no duplicates, is a subsequence of that concatenation,
holds exactly the URLs matched, and is ordered by the index of each
URL's first occurrence in that concatenation (strictly increasing along
the output); the order is thus pattern-grouped, not global
first-occurrence order in the markup. -/
theorem extraction_nodup_pattern_grouped (html : List Char) :
    (extract_plugin_urls html).Nodup ∧
    List.Sublist (extract_plugin_urls html)
      (findall pat1 html ++ findall pat2 html ++ findall pat3 html) ∧
    (∀ u, u ∈ extract_plugin_urls html ↔
      u ∈ findall pat1 html ++ findall pat2 html ++ findall pat3 html) ∧
    (extract_plugin_urls html).Pairwise (fun a b =>
      firstIdx a (findall pat1 html ++ findall pat2 html ++ findall pat3 html) <
      firstIdx b (findall pat1 html ++ findall pat2 html ++ findall pat3 html)) := by
  refine ⟨dedupAux_nodup [] _, dedupAux_sublist [] _, fun u => ?_,
    dedupAux_pairwise_firstIdx [] _⟩
  rw [extract_plugin_urls, dedupAux_mem]
  simp

set_option maxRecDepth 20000 in
/-- Claim C7: on markup holding the raw URL twice and the gist URL once
(raw first), extraction returns exactly two URLs, the raw one before
the gist one. -/
theorem dedup_extraction_concrete :
    extract_plugin_urls html7 = [rawUrl, gistUrl] := by
  decide

/-- Claim C8: the dedup ledger persisted after a run of the
spec-modelled ingestion loop is a superset of the ledger loaded before
the run; the loop never removes an identifier. -/
theorem ledger_monotone (limit : Nat) (init : List Nat) (cs : List SpecCandidate) :
    init ⊆ (specRun limit init cs).ledger :=
  foldl_specStep_ledger_mono limit cs { ledger := init, oldStreak := 0, halted := false }

/-- Claim C8 witness: a concrete two-entry ledger survives a concrete
one-candidate run. -/
theorem ledger_monotone_witness :
    [1, 2] ⊆ (specRun 3 [1, 2] [specCand]).ledger :=
  ledger_monotone 3 [1, 2] [specCand]

/-- Claim C9: every candidate increments exactly one of the four
run-summary counters, so at loop end the counters sum to the number of
candidates processed. -/
theorem counters_sum_to_candidates (max_duration : Nat)
    (dir : Option (List (List Char))) (videos : List Video) :
    (runLoop max_duration dir videos).total = videos.length := by
  have h := foldl_counters_total max_duration dir videos ⟨0, 0, 0, 0⟩
  simpa [runLoop, Counters.total] using h

/-- Claim C10: when the download directory does not exist, the
existing-output check returns no-match (False with no filename) for
every title rather than failing, so a first run against a missing
directory treats every candidate as not yet downloaded. -/
theorem missing_dir_no_match (title : List Char) :
    is_already_downloaded title none = (false, none) :=
  rfl
